import Mathlib

/-!
Verification of the ralphy synchronization and runner-supervision core.

The definitions below are a shallow embedding of the repository's code:

* the client `App.tsx` (reconciler `handleServerTasks`, client validator
  `validateTasksData`, story editing `updateCurrentStory`, serialization
  `formatTasks`);
* the Node API server (server validator `validateTasks`, `PUT /api/tasks`
  handler, log buffer `appendLog`, SSE fan-out `broadcastEvent` and the
  `GET /api/runner/logs` subscription, `startRunner`, `stopRunner`).

JavaScript machine numbers are modelled as rationals extended with the
non-finite values `nan`, `inf`, `ninf`; the only numeric operations the
code performs on them are `Number.isFinite` and order comparisons against
zero, which this model captures exactly.  JSON values decoded from request
bodies are modelled by the inductive type `Json` (JSON cannot encode
non-finite numbers, so its numbers are plain rationals).
-/

namespace Ralphy

/-- The whitespace characters stripped by JavaScript `String.prototype.trim`
(restricted to the ASCII range; all inputs in this development are ASCII). -/
def isJsWhitespace (c : Char) : Bool :=
  c = ' ' ∨ c = '\t' ∨ c = '\n' ∨ c = '\r' ∨ c = '\x0b' ∨ c = '\x0c'

/-- JavaScript `s.trim()`: strip leading and trailing whitespace. -/
def jsTrim (s : String) : String :=
  String.mk (((s.data.dropWhile isJsWhitespace).reverse.dropWhile
    isJsWhitespace).reverse)

/--`true` exactly when `!s.trim()` holds in JavaScript for the string `s`
(`trim` of a string is falsy iff it is empty). -/
def isBlank (s : String) : Bool :=
  jsTrim s = ""

/-- Helper for `splitLines`: the accumulator holds the current line in
reverse.  On a newline, one carriage return immediately before it is
consumed, matching the JavaScript split regex that eats an optional
carriage return before each newline. -/
def splitLinesGo : List Char → List Char → List String
  | [], acc => [String.mk acc.reverse]
  | '\n' :: rest, acc =>
      (match acc with
        | '\r' :: acc' => String.mk acc'.reverse
        | _ => String.mk acc.reverse) :: splitLinesGo rest []
  | c :: rest, acc => splitLinesGo rest (c :: acc)

/-- JavaScript `chunk.toString().split(/\r?\n/)`. -/
def splitLines (s : String) : List String :=
  splitLinesGo s.data []

/-- A decoded JSON value (the possible results of `JSON.parse`). -/
inductive Json where
  | null : Json
  | bool (b : Bool) : Json
  | num (q : ℚ) : Json
  | str (s : String) : Json
  | arr (xs : List Json) : Json
  | obj (fields : List (String × Json)) : Json

mutual

/-- Structural equality of JSON values. -/
def beqJson : Json → Json → Bool
  | .null, .null => true
  | .bool a, .bool b => a == b
  | .num a, .num b => a == b
  | .str a, .str b => a == b
  | .arr xs, .arr ys => beqJsonList xs ys
  | .obj fs, .obj gs => beqJsonFields fs gs
  | _, _ => false

/-- Structural equality of JSON arrays. -/
def beqJsonList : List Json → List Json → Bool
  | [], [] => true
  | x :: xs, y :: ys => beqJson x y && beqJsonList xs ys
  | _, _ => false

/-- Structural equality of JSON object field lists. -/
def beqJsonFields : List (String × Json) → List (String × Json) → Bool
  | [], [] => true
  | (k, v) :: fs, (l, w) :: gs => k == l && beqJson v w && beqJsonFields fs gs
  | _, _ => false

end

/-- Property access `v[k]` on a decoded JSON value: `some` for a present
object field, `none` when the property is absent or the value is not an
object (JavaScript would yield `undefined`). -/
def getField : Json → String → Option Json
  | .obj fields, k => fields.lookup k
  | _, _ => none

/-- JavaScript `entry && typeof entry === "object"` on a JSON value: among
decoded JSON values exactly arrays and objects are truthy with
`typeof === "object"` (`null` has object type but is falsy). -/
def truthyObject : Json → Bool
  | .arr _ => true
  | .obj _ => true
  | _ => false

/-- JavaScript `typeof v[k] === "string" && v[k].trim()`:
the field is present, is a string, and is not blank. -/
def nonBlankStrField (v : Json) (k : String) : Bool :=
  match getField v k with
  | some (.str s) => !(isBlank s)
  | _ => false

/-- JavaScript `typeof item === "string"` on a JSON value. -/
def isStrJson : Json → Bool
  | .str _ => true
  | _ => false

/-- JavaScript
`Array.isArray(v[k]) && !v[k].some(item => typeof item !== "string")`:
the field is an array all of whose elements are strings. -/
def stringArrayField (v : Json) (k : String) : Bool :=
  match getField v k with
  | some (.arr xs) => xs.all isStrJson
  | _ => false

/-- JavaScript `typeof v[k] === "number"`. -/
def numberField (v : Json) (k : String) : Bool :=
  match getField v k with
  | some (.num _) => true
  | _ => false

/-- JavaScript `typeof v[k] === "boolean"`. -/
def boolField (v : Json) (k : String) : Bool :=
  match getField v k with
  | some (.bool _) => true
  | _ => false

/-- JavaScript `Array.isArray(v[k])`, returning the elements. -/
def arrayField (v : Json) (k : String) : Option (List Json) :=
  match getField v k with
  | some (.arr xs) => some xs
  | _ => none

/-- One story's checks inside the server-side `validateTasks`
(`index` and `storyIndex` are the 0-based positions interpolated into the
messages, exactly as in the code). -/
def validateStoryS (index storyIndex : Nat) (story : Json) : Option String :=
  let lbl := "Story " ++ toString index ++ "." ++ toString storyIndex
  if !(truthyObject story) then some (lbl ++ " must be an object")
  else if !(nonBlankStrField story "id") then some (lbl ++ " requires id")
  else if !(nonBlankStrField story "title") then some (lbl ++ " requires title")
  else if !(stringArrayField story "acceptanceCriteria") then
    some (lbl ++ " requires acceptanceCriteria array")
  else if !(numberField story "priority") then
    some (lbl ++ " requires priority number")
  else if !(boolField story "passes") then
    some (lbl ++ " requires passes boolean")
  else none

/-- The `for (const [storyIndex, story] of entry.userStories.entries())`
loop of the server-side `validateTasks`. -/
def validateStoriesS (index : Nat) : Nat → List Json → Option String
  | _, [] => none
  | storyIndex, story :: rest =>
      match validateStoryS index storyIndex story with
      | some e => some e
      | none => validateStoriesS index (storyIndex + 1) rest

/-- One entry's checks inside the server-side `validateTasks`. -/
def validateEntryS (index : Nat) (entry : Json) : Option String :=
  if !(truthyObject entry) then
    some ("Entry " ++ toString index ++ " must be an object")
  else if !(nonBlankStrField entry "branchName") then
    some ("Entry " ++ toString index ++ " requires branchName")
  else
    match arrayField entry "userStories" with
    | none => some ("Entry " ++ toString index ++ " requires userStories array")
    | some stories => validateStoriesS index 0 stories

/-- The `for (const [index, entry] of payload.entries())` loop of the
server-side `validateTasks`. -/
def validateEntriesS : Nat → List Json → Option String
  | _, [] => none
  | index, entry :: rest =>
      match validateEntryS index entry with
      | some e => some e
      | none => validateEntriesS (index + 1) rest

/-- The server-side validator `validateTasks` from the API server:
returns the first failing check's message, or `none` for an accepted
payload. -/
def validateTasks (payload : Json) : Option String :=
  match payload with
  | .arr entries => validateEntriesS 0 entries
  | _ => some "tasks.json must be an array"

/-- Declarative shape of a story the server-side validator accepts. -/
def storyShapeOk (s : Json) : Prop :=
  truthyObject s = true ∧
  (∃ v, getField s "id" = some (.str v) ∧ isBlank v = false) ∧
  (∃ v, getField s "title" = some (.str v) ∧ isBlank v = false) ∧
  (∃ xs, getField s "acceptanceCriteria" = some (.arr xs) ∧
    ∀ x ∈ xs, ∃ t, x = Json.str t) ∧
  (∃ q, getField s "priority" = some (.num q)) ∧
  (∃ b, getField s "passes" = some (.bool b))

/-- Declarative shape of a branch entry the server-side validator accepts. -/
def entryShapeOk (e : Json) : Prop :=
  truthyObject e = true ∧
  (∃ v, getField e "branchName" = some (.str v) ∧ isBlank v = false) ∧
  (∃ ss, getField e "userStories" = some (.arr ss) ∧ ∀ s ∈ ss, storyShapeOk s)

/-- Declarative shape of a payload the server-side validator accepts. -/
def tasksShapeOk (p : Json) : Prop :=
  ∃ es, p = Json.arr es ∧ ∀ e ∈ es, entryShapeOk e

/-- Modelled from the spec: the §4.1 story rules named by the claim about
server-side validation — non-blank `id`, non-blank `title`, an
`acceptanceCriteria` sequence with at least one non-blank entry, a finite
`priority` strictly greater than 0, and a boolean `passes`.  (Numbers
decoded from JSON are always finite, so finiteness is automatic here.) -/
def spec41StoryOk (s : Json) : Bool :=
  nonBlankStrField s "id" &&
  nonBlankStrField s "title" &&
  (match getField s "acceptanceCriteria" with
    | some (.arr xs) =>
        xs.any fun x => match x with | .str t => !(isBlank t) | _ => false
    | _ => false) &&
  (match getField s "priority" with
    | some (.num q) => decide (0 < q)
    | _ => false) &&
  boolField s "passes"

/-- `true` when `story` occurs in the `userStories` of some entry of the
payload array. -/
def storyIn (p : Json) (story : Json) : Bool :=
  match p with
  | .arr es => es.any fun e =>
      match getField e "userStories" with
      | some (.arr ss) => ss.any fun s => beqJson s story
      | _ => false
  | _ => false

/-- A run of spaces, as produced by `JSON.stringify`'s indentation. -/
def indentStr (n : Nat) : String :=
  String.mk (List.replicate n ' ')

/-- Escaping of one character inside a JSON string literal (the escapes
`JSON.stringify` uses for the characters occurring in this development). -/
def escapeJsonChar (c : Char) : String :=
  if c = '"' then "\\\""
  else if c = '\\' then "\\\\"
  else if c = '\n' then "\\n"
  else if c = '\r' then "\\r"
  else if c = '\t' then "\\t"
  else String.singleton c

/-- Escaping of a JSON string literal body. -/
def escapeJsonString (s : String) : String :=
  String.join (s.data.map escapeJsonChar)

/-- Decimal rendering of a JSON number.  JavaScript renders numbers by the
shortest round-tripping decimal; this model renders integral values
identically (every number a claim exercises is integral) and marks
non-integral values with an explicit denominator. -/
def numRepr (q : ℚ) : String :=
  if q.den = 1 then toString q.num else toString q.num ++ "/" ++ toString q.den

mutual

/-- `JSON.stringify(v, null, 2)` at nesting indentation `ind`. -/
def serJson (ind : Nat) : Json → String
  | .null => "null"
  | .bool b => if b then "true" else "false"
  | .num q => numRepr q
  | .str s => "\"" ++ escapeJsonString s ++ "\""
  | .arr [] => "[]"
  | .arr (x :: xs) =>
      "[\n" ++ serItems (ind + 2) (x :: xs) ++ "\n" ++ indentStr ind ++ "]"
  | .obj [] => "\x7b\x7d"
  | .obj (f :: fs) =>
      "\x7b\n" ++ serFields (ind + 2) (f :: fs) ++ "\n" ++ indentStr ind ++ "\x7d"

/-- Array items of `JSON.stringify` output, one per line. -/
def serItems (ind : Nat) : List Json → String
  | [] => ""
  | [x] => indentStr ind ++ serJson ind x
  | x :: y :: rest =>
      indentStr ind ++ serJson ind x ++ ",\n" ++ serItems ind (y :: rest)

/-- Object fields of `JSON.stringify` output, one per line, in stored
(insertion) order. -/
def serFields (ind : Nat) : List (String × Json) → String
  | [] => ""
  | [(k, v)] =>
      indentStr ind ++ "\"" ++ escapeJsonString k ++ "\": " ++ serJson ind v
  | (k, v) :: g :: rest =>
      indentStr ind ++ "\"" ++ escapeJsonString k ++ "\": " ++ serJson ind v ++
        ",\n" ++ serFields ind (g :: rest)

end

/-- `JSON.stringify(payload, null, 2)`. -/
def serializeJson (v : Json) : String :=
  serJson 0 v

/-- The HTTP outcome of the `PUT /api/tasks` handler. -/
structure PutResult where
  status : Nat
  error : Option String
deriving DecidableEq

/-- The `PUT /api/tasks` handler: validate the decoded body; on failure
answer 400 with the error and leave the file alone; on success write the
canonicalized serialization followed by a newline and answer 200. -/
def putTasks (payload : Json) (disk : String) : PutResult × String :=
  match validateTasks payload with
  | some e => (⟨400, some e⟩, disk)
  | none => (⟨200, none⟩, serializeJson payload ++ "\n")

/-! ### The client-side typed document model -/

/-- A JavaScript number as the client manipulates it: a finite rational or
one of the non-finite values (the priority field can become `NaN` through
`Number("")` on a cleared input). -/
inductive JsNum where
  | nan : JsNum
  | inf : JsNum
  | ninf : JsNum
  | fin (q : ℚ) : JsNum
deriving DecidableEq

/-- `Number.isFinite`. -/
def JsNum.isFinite : JsNum → Bool
  | .fin _ => true
  | _ => false

/-- The client validator's priority test:
`Number.isFinite(priority) && priority > 0`
(the code rejects on `!Number.isFinite(p) || p <= 0`; `NaN` compares false
either way and is rejected by the finiteness test). -/
def priorityOk : JsNum → Bool
  | .fin q => decide (0 < q)
  | _ => false

/-- The client's `UserStory` record type. -/
structure UserStory where
  id : String
  title : String
  acceptanceCriteria : List String
  priority : JsNum
  passes : Bool
  notes : Option String
deriving DecidableEq

/-- The client's `TaskBranch` record type. -/
structure TaskBranch where
  branchName : String
  userStories : List UserStory
deriving DecidableEq

/-- `JSON.stringify` renders the non-finite numbers as `null`. -/
def jsNumToJson : JsNum → Json
  | .fin q => .num q
  | _ => .null

/-- The JSON value of a typed story.  Field order is the declaration order
of the record type; a `notes` field that is `undefined` is omitted, as
`JSON.stringify` omits `undefined` properties. -/
def storyToJson (s : UserStory) : Json :=
  .obj ([("id", .str s.id), ("title", .str s.title),
    ("acceptanceCriteria", .arr (s.acceptanceCriteria.map Json.str)),
    ("priority", jsNumToJson s.priority), ("passes", .bool s.passes)] ++
    (match s.notes with | some n => [("notes", Json.str n)] | none => []))

/-- The JSON value of a typed branch. -/
def branchToJson (b : TaskBranch) : Json :=
  .obj [("branchName", .str b.branchName),
    ("userStories", .arr (b.userStories.map storyToJson))]

/-- The client's `formatTasks`: `JSON.stringify(data, null, 2)` on the
typed document. -/
def formatTasks (d : List TaskBranch) : String :=
  serializeJson (.arr (d.map branchToJson))

/-! ### The client-side validator (§4.1 Validation Engine)

`validateTasksData` receives the typed `TaskBranch[]` state, so the checks
the code performs against untyped data (`Array.isArray(payload)`,
`typeof entry === "object"`, `Array.isArray(entry.userStories)`,
`typeof story.passes === "boolean"`) always succeed and are omitted from
this embedding. -/

/-- One story's checks inside the client validator, with the 1-based label
numbers already interpolated (`Story {index+1}.{storyIndex+1}`). -/
def storyCheck (bi sj : Nat) (s : UserStory) : Option String :=
  let lbl := "Story " ++ toString bi ++ "." ++ toString sj
  if isBlank s.id then some (lbl ++ " needs an ID.")
  else if isBlank s.title then some (lbl ++ " needs a title.")
  else if !(s.acceptanceCriteria.any fun x => !(isBlank x)) then
    some (lbl ++ " needs at least one acceptance criterion.")
  else if !(priorityOk s.priority) then
    some (lbl ++ " priority must be positive.")
  else none

/-- The story loop of the client validator (`index` is the 0-based branch
position, the second argument the 0-based story position of the head). -/
def validateStoriesC (index : Nat) : Nat → List UserStory → Option String
  | _, [] => none
  | storyIndex, s :: rest =>
      match storyCheck (index + 1) (storyIndex + 1) s with
      | some e => some e
      | none => validateStoriesC index (storyIndex + 1) rest

/-- The branch loop of the client validator. -/
def validateBranchesC : Nat → List TaskBranch → Option String
  | _, [] => none
  | index, b :: rest =>
      if isBlank b.branchName then
        some ("Branch " ++ toString (index + 1) ++ " needs a name.")
      else
        match validateStoriesC index 0 b.userStories with
        | some e => some e
        | none => validateBranchesC (index + 1) rest

/-- The client validator `validateTasksData`. -/
def validateTasksData (payload : List TaskBranch) : Option String :=
  if payload.isEmpty then some "No task branches loaded."
  else validateBranchesC 0 payload

/-- A story passes every story-level check of the client validator. -/
def storyOk (s : UserStory) : Prop :=
  isBlank s.id = false ∧ isBlank s.title = false ∧
  (∃ x ∈ s.acceptanceCriteria, isBlank x = false) ∧
  priorityOk s.priority = true

instance (s : UserStory) : Decidable (storyOk s) := by
  unfold storyOk; infer_instance

/-- A branch passes its name check and all of its stories' checks. -/
def branchOk (b : TaskBranch) : Prop :=
  isBlank b.branchName = false ∧ ∀ s ∈ b.userStories, storyOk s

instance (b : TaskBranch) : Decidable (branchOk b) := by
  unfold branchOk; infer_instance

/-! ### The client-side reconciler (SyncState) -/

/-- The save banner state (`saveState` in the component). -/
inductive SaveStatus where
  | idle : SaveStatus
  | saving : SaveStatus
  | success : SaveStatus
  | error : SaveStatus
deriving DecidableEq

/-- The `saveState` record. -/
structure SaveState where
  status : SaveStatus
  message : String
deriving DecidableEq

/-- The reconciler's per-session state: `serverTasksRef` (the last known
server snapshot as serialized text), the editable `tasksData` working copy,
the `dirty` and `locked` flags, the selected story and the save banner. -/
structure ClientState where
  serverTasks : String
  tasksData : List TaskBranch
  dirty : Bool
  locked : Bool
  selectedStoryId : Option String
  saveState : SaveState
deriving DecidableEq

/-- JavaScript `!selectedStoryId` for a `string | null` value: truthy test
fails for `null` and for the empty string. -/
def noSelection : Option String → Bool
  | none => true
  | some s => s == ""

/-- `handleServerTasks(next, parsed)`: the reconciler's conflict protocol
for an incoming snapshot `next` (serialized) with decoded form `parsed`. -/
def handleServerTasks (st : ClientState) (next : String)
    (parsed : List TaskBranch) : ClientState :=
  if next == st.serverTasks then st
  else
    let st := { st with serverTasks := next }
    if st.dirty then { st with locked := true }
    else
      let st := { st with tasksData := parsed, dirty := false, locked := false,
                          saveState := ⟨.idle, ""⟩ }
      match parsed.head? with
      | some b =>
          match b.userStories.head? with
          | some s0 =>
              if noSelection st.selectedStoryId then
                { st with selectedStoryId := some s0.id }
              else st
          | none => st
      | none => st

/-- `activeBranch.userStories.find(story => story.id === selectedStoryId)`:
with a `null` selection the strict comparison never succeeds. -/
def findSelected (ss : List UserStory) : Option String → Option UserStory
  | some sid => ss.find? fun t => t.id == sid
  | none => none

/-- The `currentStory` selector: the story matching the selection, else the
first story of the active (first) branch, else nothing. -/
def currentStoryOf (d : List TaskBranch) (sid : Option String) : Option UserStory :=
  match d.head? with
  | some b => (findSelected b.userStories sid).orElse fun _ => b.userStories.head?
  | none => none

/-- `updateCurrentStory(updater)`: apply the updater to every story of the
active branch (and of any branch sharing its name) whose id equals the
current story's id, then recompute `dirty` by comparing the serialization
of the updated document against the last server snapshot. -/
def updateCurrentStory (st : ClientState) (u : UserStory → UserStory) :
    ClientState :=
  match st.tasksData.head?, currentStoryOf st.tasksData st.selectedStoryId with
  | some b, some cur =>
      let updated := st.tasksData.map fun br =>
        if br.branchName == b.branchName then
          { br with userStories := br.userStories.map fun t =>
              if t.id == cur.id then u t else t }
        else br
      { st with tasksData := updated,
                dirty := formatTasks updated != st.serverTasks }
  | _, _ => st

/-! ### The server: runner supervisor and log fan-out -/

/-- The runner status payload (`runnerStatus()` in the server). -/
structure StatusPayload where
  running : Bool
  command : Option String
  args : Option (List String)
  startedAt : Option String
deriving DecidableEq

/-- A server-sent event as written to one subscriber's stream:
one `res.write` of an `event: status` or `event: log` message. -/
inductive Event where
  | status (p : StatusPayload) : Event
  | log (line : String) : Event
deriving DecidableEq

/-- One connected log subscriber: its connection id and the events written
to it so far, in order. -/
structure Subscriber where
  cid : Nat
  inbox : List Event
deriving DecidableEq

/-- A child process handle with Node `child_process` semantics: `killed` is
set once `kill()` has successfully *sent* a signal; it does not indicate
that the process exited.  `alive` tracks whether the process is still
running (a process may ignore `SIGTERM` and stay alive). -/
structure Child where
  alive : Bool
  killed : Bool
  signals : List String
deriving DecidableEq

/-- The active runner record. -/
structure RunnerRec where
  child : Child
  command : String
  args : List String
  startedAt : String
deriving DecidableEq

/-- A recorded `spawn` invocation. -/
structure SpawnCall where
  command : String
  args : List String
  shell : Bool
  cwd : String
deriving DecidableEq

/-- The server's module-level mutable state: the log buffer, the set of log
subscribers (`logClients`), the active runner (`runner`) and the history of
`spawn` calls made. -/
structure ServerState where
  logBuffer : List String
  clients : List Subscriber
  runner : Option RunnerRec
  spawns : List SpawnCall
deriving DecidableEq

/-- `maxLogLines` from the server. -/
def maxLogLines : Nat := 500

/-- `broadcastEvent`: write the event to every currently connected
subscriber. -/
def broadcastEvent (st : ServerState) (ev : Event) : ServerState :=
  { st with clients := st.clients.map fun c => { c with inbox := c.inbox ++ [ev] } }

/-- `runnerStatus()`. -/
def runnerStatus (st : ServerState) : StatusPayload :=
  match st.runner with
  | some r => ⟨true, some r.command, some r.args, some r.startedAt⟩
  | none => ⟨false, none, none, none⟩

/-- The body of `appendLog`'s per-line loop: skip empty lines, push the
line onto the buffer, shift the oldest line out when the bound is
exceeded, then broadcast a `log` event. -/
def pushLine (st : ServerState) (line : String) : ServerState :=
  if line == "" then st
  else
    let buf := st.logBuffer ++ [line]
    let buf := if maxLogLines < buf.length then buf.drop 1 else buf
    broadcastEvent { st with logBuffer := buf } (.log line)

/-- Fold `pushLine` over a list of lines. -/
def emitLines (st : ServerState) (ls : List String) : ServerState :=
  ls.foldl pushLine st

/-- `appendLog(chunk)`: return early on a falsy chunk, otherwise split the
chunk into newline-delimited lines and process each. -/
def appendLog (st : ServerState) (chunk : String) : ServerState :=
  if chunk == "" then st else emitLines st (splitLines chunk)

/-- The `GET /api/runner/logs` connection handler: synchronously write the
current status event to the new subscriber, then one `log` event per
buffered line in order, and only then add it to `logClients`. -/
def subscribe (st : ServerState) (cid : Nat) : ServerState :=
  let replay := Event.status (runnerStatus st) :: st.logBuffer.map Event.log
  { st with clients := st.clients ++ [⟨cid, replay⟩] }

/-- Look up a subscriber by connection id. -/
def findClient (st : ServerState) (cid : Nat) : Option Subscriber :=
  st.clients.find? fun c => c.cid == cid

/-- The decoded body of `POST /api/runner/start` (`none` stands for an
absent field or one of the wrong runtime type). -/
structure StartPayload where
  command : Option String
  args : Option (List String)
  cwd : Option String
deriving DecidableEq

/-- Stand-in constant for `process.cwd()`. -/
def processCwd : String := "."

/-- `child.kill(signal)` with Node semantics: when the process still
exists the signal is sent and `killed` is set; whether the process then
exits is up to the process (it may ignore `SIGTERM`). -/
def killChild (c : Child) (signal : String) : Child :=
  if c.alive then { c with killed := true, signals := c.signals ++ [signal] } else c

/-- `startRunner({command, args, cwd})` at wall-clock time `now`. -/
def startRunner (st : ServerState) (p : StartPayload) (now : String) :
    Except String Unit × ServerState :=
  if st.runner.isSome then (.error "Runner already active", st)
  else
    match p.command with
    | none => (.error "command is required", st)
    | some cmd =>
        if isBlank cmd then (.error "command is required", st)
        else
          let spawnArgs := p.args.getD []
          let spawnCwd := match p.cwd with
            | some c => if isBlank c then processCwd else c
            | none => processCwd
          let useShell := spawnArgs.isEmpty
          let child : Child := ⟨true, false, []⟩
          let st := { st with
            spawns := st.spawns ++ [⟨cmd, spawnArgs, useShell, spawnCwd⟩],
            runner := some ⟨child, cmd, spawnArgs, now⟩ }
          let st := appendLog st
            (jsTrim ("> " ++ cmd ++ " " ++ String.intercalate " " spawnArgs))
          let st := broadcastEvent st (.status (runnerStatus st))
          (.ok (), st)

/-- `stopRunner()`: with no active runner report the error; otherwise send
`SIGTERM` to the child and return success immediately (the forced-kill
timer is modelled separately by `stopTimeoutFires`). -/
def stopRunner (st : ServerState) : Except String Unit × ServerState :=
  match st.runner with
  | none => (.error "Runner is not active", st)
  | some r =>
      (.ok (), { st with runner := some { r with child := killChild r.child "SIGTERM" } })

/-- The `setTimeout` callback scheduled by `stopRunner` 5 seconds later:
`if (!child.killed) child.kill("SIGKILL")`. -/
def stopTimeoutFires (c : Child) : Child :=
  if !c.killed then killChild c "SIGKILL" else c

/-- An event-loop turn the fan-out claims quantify over: a chunk of child
output arriving, or a status broadcast. -/
inductive ServerOp where
  | output (chunk : String) : ServerOp
  | statusBroadcast : ServerOp
deriving DecidableEq

/-- Apply one event-loop turn. -/
def applyServerOp (st : ServerState) : ServerOp → ServerState
  | .output chunk => appendLog st chunk
  | .statusBroadcast => broadcastEvent st (.status (runnerStatus st))

/-- Apply a sequence of event-loop turns. -/
def runOps (st : ServerState) : List ServerOp → ServerState
  | [] => st
  | op :: ops => runOps (applyServerOp st op) ops

/-- The live events one turn delivers to every connected subscriber. -/
def opEvents (st : ServerState) : ServerOp → List Event
  | .output chunk =>
      if chunk == "" then []
      else ((splitLines chunk).filter fun l => !(l == "")).map Event.log
  | .statusBroadcast => [Event.status (runnerStatus st)]

/-- The live events a sequence of turns delivers to every connected
subscriber, in order. -/
def emittedEvents (st : ServerState) : List ServerOp → List Event
  | [] => []
  | op :: ops => opEvents st op ++ emittedEvents (applyServerOp st op) ops

/-- Append a batch of events to a subscriber's stream. -/
def addEvents (c : Subscriber) (evs : List Event) : Subscriber :=
  { c with inbox := c.inbox ++ evs }

/-- A concrete story used to exercise the reconciler. -/
def exampleStory : UserStory := ⟨"S-001", "A", ["x"], .fin 1, false, none⟩

/-- A concrete one-branch document. -/
def exampleDoc : List TaskBranch := [⟨"main", [exampleStory]⟩]

/-- A concrete in-sync editing session (snapshot equals the serialized
working copy, not dirty, not locked, first story selected). -/
def exampleSession : ClientState :=
  ⟨formatTasks exampleDoc, exampleDoc, false, false, some "S-001", ⟨.idle, ""⟩⟩

/-- A field edit that toggles the pass flag (its own inverse). -/
def togglePasses (t : UserStory) : UserStory := { t with passes := !t.passes }

/-! ## Theorems -/

section Lemmas

lemma broadcastEvent_logBuffer (st : ServerState) (ev : Event) :
    (broadcastEvent st ev).logBuffer = st.logBuffer := rfl

lemma broadcastEvent_runner (st : ServerState) (ev : Event) :
    (broadcastEvent st ev).runner = st.runner := rfl

lemma broadcastEvent_spawns (st : ServerState) (ev : Event) :
    (broadcastEvent st ev).spawns = st.spawns := rfl

lemma pushLine_spawns (st : ServerState) (l : String) :
    (pushLine st l).spawns = st.spawns := by
  unfold pushLine
  split <;> rfl

lemma pushLine_runner (st : ServerState) (l : String) :
    (pushLine st l).runner = st.runner := by
  unfold pushLine
  split <;> rfl

lemma emitLines_spawns (ls : List String) :
    ∀ st : ServerState, (emitLines st ls).spawns = st.spawns := by
  induction ls with
  | nil => intro st; rfl
  | cons l ls ih =>
      intro st
      show (emitLines (pushLine st l) ls).spawns = st.spawns
      rw [ih, pushLine_spawns]

lemma emitLines_runner (ls : List String) :
    ∀ st : ServerState, (emitLines st ls).runner = st.runner := by
  induction ls with
  | nil => intro st; rfl
  | cons l ls ih =>
      intro st
      show (emitLines (pushLine st l) ls).runner = st.runner
      rw [ih, pushLine_runner]

lemma appendLog_spawns (st : ServerState) (chunk : String) :
    (appendLog st chunk).spawns = st.spawns := by
  unfold appendLog
  split
  · rfl
  · exact emitLines_spawns _ st

lemma appendLog_runner (st : ServerState) (chunk : String) :
    (appendLog st chunk).runner = st.runner := by
  unfold appendLog
  split
  · rfl
  · exact emitLines_runner _ st

lemma nonBlankStrField_true_iff (v : Json) (k : String) :
    nonBlankStrField v k = true ↔
      ∃ s, getField v k = some (.str s) ∧ isBlank s = false := by
  unfold nonBlankStrField
  cases h : getField v k with
  | none => simp
  | some j => cases j <;> simp [Bool.not_eq_true']

lemma isStrJson_true_iff (x : Json) : isStrJson x = true ↔ ∃ t, x = Json.str t := by
  cases x <;> simp [isStrJson]

lemma stringArrayField_true_iff (v : Json) (k : String) :
    stringArrayField v k = true ↔
      ∃ xs, getField v k = some (.arr xs) ∧ ∀ x ∈ xs, ∃ t, x = Json.str t := by
  unfold stringArrayField
  cases h : getField v k with
  | none => simp
  | some j => cases j <;> simp [List.all_eq_true, isStrJson_true_iff]

lemma numberField_true_iff (v : Json) (k : String) :
    numberField v k = true ↔ ∃ q, getField v k = some (.num q) := by
  unfold numberField
  cases h : getField v k with
  | none => simp
  | some j => cases j <;> simp

lemma boolField_true_iff (v : Json) (k : String) :
    boolField v k = true ↔ ∃ b, getField v k = some (.bool b) := by
  unfold boolField
  cases h : getField v k with
  | none => simp
  | some j => cases j <;> simp

lemma arrayField_eq_some_iff (v : Json) (k : String) (xs : List Json) :
    arrayField v k = some xs ↔ getField v k = some (.arr xs) := by
  unfold arrayField
  cases h : getField v k with
  | none => simp
  | some j => cases j <;> simp

lemma arrayField_eq_none_iff (v : Json) (k : String) :
    arrayField v k = none ↔ ∀ xs, getField v k ≠ some (.arr xs) := by
  unfold arrayField
  cases h : getField v k with
  | none => simp
  | some j => cases j <;> simp

lemma validateStoryS_none_iff (i j : Nat) (s : Json) :
    validateStoryS i j s = none ↔ storyShapeOk s := by
  have hb : validateStoryS i j s = none ↔
      (truthyObject s && nonBlankStrField s "id" && nonBlankStrField s "title" &&
        stringArrayField s "acceptanceCriteria" && numberField s "priority" &&
        boolField s "passes") = true := by
    unfold validateStoryS
    split_ifs <;> simp_all
  rw [hb]
  unfold storyShapeOk
  simp [Bool.and_eq_true, nonBlankStrField_true_iff, stringArrayField_true_iff,
    numberField_true_iff, boolField_true_iff, and_assoc]

lemma validateStoriesS_none_iff (i : Nat) :
    ∀ (j : Nat) (ss : List Json),
      validateStoriesS i j ss = none ↔ ∀ s ∈ ss, storyShapeOk s := by
  intro j ss
  induction ss generalizing j with
  | nil => simp [validateStoriesS]
  | cons s rest ih =>
      unfold validateStoriesS
      cases h : validateStoryS i j s with
      | none =>
          have hs : storyShapeOk s := (validateStoryS_none_iff i j s).mp h
          simp [ih (j + 1), hs]
      | some e =>
          have hs : ¬ storyShapeOk s := fun hc => by
            rw [(validateStoryS_none_iff i j s).mpr hc] at h
            exact Option.noConfusion h
          simp [hs]

lemma validateEntryS_none_iff (i : Nat) (e : Json) :
    validateEntryS i e = none ↔ entryShapeOk e := by
  unfold validateEntryS entryShapeOk
  split_ifs with h1 h2
  · simp only [Bool.not_eq_true'] at h1
    simp [h1]
  · simp only [Bool.not_eq_true'] at h2
    have : ¬ ∃ v, getField e "branchName" = some (.str v) ∧ isBlank v = false := by
      rw [← nonBlankStrField_true_iff, h2]
      simp
    simp [this]
  · simp only [Bool.not_eq_true, Bool.not_eq_false'] at h1 h2
    cases harr : arrayField e "userStories" with
    | none =>
        have hno := (arrayField_eq_none_iff e "userStories").mp harr
        constructor
        · intro hc; exact Option.noConfusion hc
        · rintro ⟨-, -, ss, hss, -⟩
          exact absurd hss (hno ss)
    | some stories =>
        have hg := (arrayField_eq_some_iff e "userStories" stories).mp harr
        rw [validateStoriesS_none_iff]
        constructor
        · intro hall
          exact ⟨h1, (nonBlankStrField_true_iff e "branchName").mp h2,
            stories, hg, hall⟩
        · rintro ⟨-, -, ss, hss, hall⟩
          rw [hg] at hss
          cases hss
          exact hall

lemma validateEntriesS_none_iff :
    ∀ (i : Nat) (es : List Json),
      validateEntriesS i es = none ↔ ∀ e ∈ es, entryShapeOk e := by
  intro i es
  induction es generalizing i with
  | nil => simp [validateEntriesS]
  | cons e rest ih =>
      unfold validateEntriesS
      cases h : validateEntryS i e with
      | none =>
          have he : entryShapeOk e := (validateEntryS_none_iff i e).mp h
          simp [ih (i + 1), he]
      | some msg =>
          have he : ¬ entryShapeOk e := fun hc => by
            rw [(validateEntryS_none_iff i e).mpr hc] at h
            exact Option.noConfusion h
          simp [he]

lemma storyCheck_none_iff (bi sj : Nat) (s : UserStory) :
    storyCheck bi sj s = none ↔ storyOk s := by
  unfold storyCheck storyOk
  split_ifs with h1 h2 h3 h4 <;>
    simp_all [List.any_eq_true, Bool.not_eq_true']

lemma storyCheck_some_label (bi sj : Nat) (s : UserStory) (h : ¬ storyOk s) :
    ∃ m, storyCheck bi sj s =
      some ("Story " ++ toString bi ++ "." ++ toString sj ++ m) := by
  unfold storyCheck
  split_ifs with h1 h2 h3 h4
  · exact ⟨" needs an ID.", rfl⟩
  · exact ⟨" needs a title.", rfl⟩
  · exact ⟨" needs at least one acceptance criterion.", rfl⟩
  · exact ⟨" priority must be positive.", rfl⟩
  · exfalso
    apply h
    simp only [Bool.not_eq_true] at h1 h2
    simp only [Bool.not_eq_true, Bool.not_eq_false'] at h3 h4
    exact ⟨h1, h2, by simpa [List.any_eq_true, Bool.not_eq_true'] using h3, h4⟩

lemma validateStoriesC_none (i : Nat) :
    ∀ (j : Nat) (ss : List UserStory), (∀ s ∈ ss, storyOk s) →
      validateStoriesC i j ss = none := by
  intro j ss
  induction ss generalizing j with
  | nil => intro _; rfl
  | cons s rest ih =>
      intro h
      unfold validateStoriesC
      rw [(storyCheck_none_iff _ _ s).mpr (h s (by simp))]
      exact ih (j + 1) fun s' hs' => h s' (by simp [hs'])

lemma validateStoriesC_first (i : Nat) :
    ∀ (ss : List UserStory) (j j0 : Nat) (s : UserStory),
      (∀ s' ∈ ss.take j, storyOk s') → ss[j]? = some s → ¬ storyOk s →
      validateStoriesC i j0 ss = storyCheck (i + 1) (j0 + j + 1) s := by
  intro ss
  induction ss with
  | nil => intro j j0 s _ hget _; simp at hget
  | cons hd tl ih =>
      intro j j0 s htake hget hbad
      cases j with
      | zero =>
          simp only [List.getElem?_cons_zero, Option.some.injEq] at hget
          subst hget
          unfold validateStoriesC
          cases hsc : storyCheck (i + 1) (j0 + 1) hd with
          | none => exact absurd ((storyCheck_none_iff _ _ hd).mp hsc) hbad
          | some e => simp [hsc]
      | succ j' =>
          have hok : storyOk hd := htake hd (by
            rw [List.take_succ_cons]; exact List.mem_cons_self _ _)
          unfold validateStoriesC
          rw [(storyCheck_none_iff _ _ hd).mpr hok]
          have hrec := ih j' (j0 + 1) s
            (fun s' hs' => htake s' (by
              rw [List.take_succ_cons]; exact List.mem_cons_of_mem _ hs'))
            (by simpa using hget) hbad
          have harith : j0 + 1 + j' + 1 = j0 + (j' + 1) + 1 := by omega
          rw [harith] at hrec
          exact hrec

lemma validateBranchesC_first :
    ∀ (bs : List TaskBranch) (i i0 : Nat) (b : TaskBranch) (j : Nat)
      (s : UserStory),
      (∀ b' ∈ bs.take i, branchOk b') → bs[i]? = some b →
      isBlank b.branchName = false →
      (∀ s' ∈ b.userStories.take j, storyOk s') →
      b.userStories[j]? = some s → ¬ storyOk s →
      validateBranchesC i0 bs = storyCheck (i0 + i + 1) (j + 1) s := by
  intro bs
  induction bs with
  | nil => intro i i0 b j s _ hget _ _ _ _; simp at hget
  | cons hd tl ih =>
      intro i i0 b j s hpre hget hname hsok hs hbad
      cases i with
      | zero =>
          simp only [List.getElem?_cons_zero, Option.some.injEq] at hget
          subst hget
          unfold validateBranchesC
          rw [if_neg (by simp [hname])]
          have hst := validateStoriesC_first i0 hd.userStories j 0 s hsok hs hbad
          have harith : 0 + j + 1 = j + 1 := by omega
          rw [harith] at hst
          rw [hst]
          cases hsc : storyCheck (i0 + 1) (j + 1) s with
          | none => exact absurd ((storyCheck_none_iff _ _ s).mp hsc) hbad
          | some e => simp [hsc]
      | succ i' =>
          have hok : branchOk hd := hpre hd (by
            rw [List.take_succ_cons]; exact List.mem_cons_self _ _)
          unfold validateBranchesC
          rw [if_neg (by simp [hok.1])]
          rw [validateStoriesC_none i0 0 hd.userStories hok.2]
          have hrec := ih i' (i0 + 1) b j s
            (fun b' hb' => hpre b' (by
              rw [List.take_succ_cons]; exact List.mem_cons_of_mem _ hb'))
            (by simpa using hget) hname hsok hs hbad
          have harith : i0 + 1 + i' + 1 = i0 + (i' + 1) + 1 := by omega
          rw [harith] at hrec
          exact hrec

lemma pushLine_logBuffer_empty (st : ServerState) : pushLine st "" = st := by
  unfold pushLine
  simp

lemma pushLine_logBuffer (st : ServerState) (l : String) (hl : l ≠ "") :
    (pushLine st l).logBuffer =
      if maxLogLines < (st.logBuffer ++ [l]).length then
        (st.logBuffer ++ [l]).drop 1
      else st.logBuffer ++ [l] := by
  unfold pushLine
  rw [if_neg (by simp [hl])]
  rfl

set_option maxRecDepth 4000 in
lemma emitLines_logBuffer :
    ∀ (ls : List String) (st : ServerState),
      st.logBuffer.length ≤ maxLogLines →
      (emitLines st ls).logBuffer =
        (st.logBuffer ++ ls.filter fun l => !(l == "")).drop
          (st.logBuffer.length +
            (ls.filter fun l => !(l == "")).length - maxLogLines) := by
  intro ls
  induction ls with
  | nil =>
      intro st h
      simp [emitLines, Nat.sub_eq_zero_of_le (by simpa using h)]
  | cons l ls ih =>
      intro st h
      show (emitLines (pushLine st l) ls).logBuffer = _
      by_cases hl : l = ""
      · subst hl
        rw [pushLine_logBuffer_empty]
        simpa using ih st h
      · have hfil : ((l :: ls).filter fun x => !(x == "")) =
            l :: (ls.filter fun x => !(x == "")) := by simp [hl]
        rw [hfil]
        rcases Nat.lt_or_ge st.logBuffer.length maxLogLines with hlb | hge
        · have hp : (pushLine st l).logBuffer = st.logBuffer ++ [l] := by
            rw [pushLine_logBuffer st l hl,
              if_neg (by simp only [List.length_append, List.length_cons,
                List.length_nil]; omega)]
          have hle : (pushLine st l).logBuffer.length ≤ maxLogLines := by
            rw [hp]; simp only [List.length_append, List.length_cons,
              List.length_nil]; omega
          rw [ih (pushLine st l) hle, hp]
          rw [List.append_assoc, List.singleton_append]
          have harith : (st.logBuffer ++ [l]).length +
                (List.filter (fun x => !(x == "")) ls).length - maxLogLines =
              st.logBuffer.length +
                (l :: List.filter (fun x => !(x == "")) ls).length -
                  maxLogLines := by
            simp only [List.length_append, List.length_cons, List.length_nil]
            omega
          rw [harith]
        · have hlen : st.logBuffer.length = maxLogLines :=
            Nat.le_antisymm h hge
          have hp : (pushLine st l).logBuffer = (st.logBuffer ++ [l]).drop 1 := by
            rw [pushLine_logBuffer st l hl,
              if_pos (by simp only [List.length_append, List.length_cons,
                List.length_nil]; omega)]
          have hle : (pushLine st l).logBuffer.length ≤ maxLogLines := by
            rw [hp]
            simp only [List.length_drop, List.length_append, List.length_cons,
              List.length_nil]
            omega
          rw [ih (pushLine st l) hle, hp]
          have h1 : (1 : Nat) ≤ (st.logBuffer ++ [l]).length := by
            simp only [List.length_append, List.length_cons, List.length_nil]
            omega
          rw [← List.drop_append_of_le_length h1, List.drop_drop,
            List.append_assoc, List.singleton_append]
          have harith : 1 + (((st.logBuffer ++ [l]).drop 1).length +
                (List.filter (fun x => !(x == "")) ls).length - maxLogLines) =
              st.logBuffer.length +
                (l :: List.filter (fun x => !(x == "")) ls).length -
                  maxLogLines := by
            simp only [List.length_drop, List.length_append, List.length_cons,
              List.length_nil]
            omega
          rw [harith]

lemma addEvents_nil (c : Subscriber) : addEvents c [] = c := by
  cases c
  simp [addEvents]

lemma addEvents_append (c : Subscriber) (e1 e2 : List Event) :
    addEvents (addEvents c e1) e2 = addEvents c (e1 ++ e2) := by
  simp [addEvents, List.append_assoc]

lemma addEvents_cid (c : Subscriber) (evs : List Event) :
    (addEvents c evs).cid = c.cid := rfl

lemma map_addEvents_nil (cs : List Subscriber) :
    (cs.map fun c => addEvents c []) = cs := by
  rw [show (fun c => addEvents c []) = id from funext fun c => addEvents_nil c,
    List.map_id]

lemma broadcastEvent_clients (st : ServerState) (ev : Event) :
    (broadcastEvent st ev).clients =
      st.clients.map fun c => addEvents c [ev] := rfl

lemma pushLine_clients (st : ServerState) (l : String) :
    (pushLine st l).clients =
      if (l == "") = true then st.clients
      else st.clients.map fun c => addEvents c [Event.log l] := by
  unfold pushLine
  by_cases hl : (l == "") = true
  · rw [if_pos hl, if_pos hl]
  · rw [if_neg hl, if_neg hl]
    rfl

lemma emitLines_clients (ls : List String) :
    ∀ st : ServerState, (emitLines st ls).clients =
      st.clients.map fun c =>
        addEvents c ((ls.filter fun l => !(l == "")).map Event.log) := by
  induction ls with
  | nil =>
      intro st
      show st.clients = _
      rw [show (List.filter (fun l => !(l == "")) []).map Event.log = [] from rfl,
        map_addEvents_nil]
  | cons l ls ih =>
      intro st
      show (emitLines (pushLine st l) ls).clients = _
      rw [ih (pushLine st l), pushLine_clients]
      by_cases hl : (l == "") = true
      · rw [if_pos hl]
        have hl' : l = "" := by simpa using hl
        subst hl'
        rfl
      · rw [if_neg hl, List.map_map]
        have hfil : ((l :: ls).filter fun x => !(x == "")) =
            l :: (ls.filter fun x => !(x == "")) := by
          simp [List.filter_cons, hl]
        rw [hfil]
        apply List.map_congr_left
        intro c _
        show addEvents (addEvents c [Event.log l]) _ = _
        rw [addEvents_append]
        rfl

lemma appendLog_clients (st : ServerState) (chunk : String) :
    (appendLog st chunk).clients =
      st.clients.map fun c => addEvents c (opEvents st (.output chunk)) := by
  unfold appendLog
  by_cases hc : (chunk == "") = true
  · rw [if_pos hc]
    rw [show opEvents st (.output chunk) = [] by simp [opEvents, hc],
      map_addEvents_nil]
  · rw [if_neg hc]
    rw [show opEvents st (.output chunk) =
        ((splitLines chunk).filter fun l => !(l == "")).map Event.log by
      simp [opEvents, hc]]
    exact emitLines_clients _ st

lemma applyServerOp_clients (st : ServerState) (op : ServerOp) :
    (applyServerOp st op).clients =
      st.clients.map fun c => addEvents c (opEvents st op) := by
  cases op with
  | output chunk => exact appendLog_clients st chunk
  | statusBroadcast => rfl

lemma runOps_clients (ops : List ServerOp) :
    ∀ st : ServerState, (runOps st ops).clients =
      st.clients.map fun c => addEvents c (emittedEvents st ops) := by
  induction ops with
  | nil =>
      intro st
      show st.clients = _
      rw [show emittedEvents st [] = [] from rfl, map_addEvents_nil]
  | cons op ops ih =>
      intro st
      show (runOps (applyServerOp st op) ops).clients = _
      rw [ih (applyServerOp st op), applyServerOp_clients, List.map_map]
      apply List.map_congr_left
      intro c _
      show addEvents (addEvents c (opEvents st op)) _ = _
      rw [addEvents_append]
      rfl

lemma find?_append_last {α : Type} {p : α → Bool} (l : List α) (x : α)
    (h : ∀ y ∈ l, p y = false) (hx : p x = true) :
    (l ++ [x]).find? p = some x := by
  induction l with
  | nil => simp [List.find?, hx]
  | cons y ys ih =>
      simp only [List.cons_append, List.find?]
      rw [h y (by simp)]
      exact ih fun z hz => h z (by simp [hz])

lemma find?_map_id_pres (ss : List UserStory) (f : UserStory → UserStory)
    (hf : ∀ t, (f t).id = t.id) (x : String) :
    (ss.map f).find? (fun t => t.id == x) =
      (ss.find? fun t => t.id == x).map f := by
  induction ss with
  | nil => rfl
  | cons t ts ih =>
      by_cases hp : (t.id == x) = true
      · rw [List.map_cons,
          @List.find?_cons_of_pos _ (fun s => s.id == x) (f t) (ts.map f)
            (by show ((f t).id == x) = true; rw [hf t]; exact hp),
          @List.find?_cons_of_pos _ (fun s => s.id == x) t ts hp]
        rfl
      · rw [List.map_cons,
          @List.find?_cons_of_neg _ (fun s => s.id == x) (f t) (ts.map f)
            (by show ¬ ((f t).id == x) = true; rw [hf t]; exact hp),
          @List.find?_cons_of_neg _ (fun s => s.id == x) t ts hp]
        exact ih

lemma findSelected_map (ss : List UserStory) (f : UserStory → UserStory)
    (hf : ∀ t, (f t).id = t.id) (sid : Option String) :
    findSelected (ss.map f) sid = (findSelected ss sid).map f := by
  cases sid with
  | none => rfl
  | some x => exact find?_map_id_pres ss f hf x

lemma option_map_orElse (o h : Option UserStory) (f : UserStory → UserStory) :
    (o.map f).orElse (fun _ => h.map f) = (o.orElse fun _ => h).map f := by
  cases o <;> rfl

lemma currentStoryOf_head (d : List TaskBranch) (b : TaskBranch)
    (hd : d.head? = some b) (sid : Option String) :
    currentStoryOf d sid =
      (findSelected b.userStories sid).orElse fun _ => b.userStories.head? := by
  unfold currentStoryOf
  rw [hd]

lemma updateCurrentStory_eq (st : ClientState) (u : UserStory → UserStory)
    (b : TaskBranch) (cur : UserStory)
    (hb : st.tasksData.head? = some b)
    (hc : currentStoryOf st.tasksData st.selectedStoryId = some cur) :
    updateCurrentStory st u =
      { st with
        tasksData := st.tasksData.map fun br =>
          if br.branchName == b.branchName then
            { br with userStories := br.userStories.map fun t =>
                if t.id == cur.id then u t else t }
          else br,
        dirty := formatTasks (st.tasksData.map fun br =>
          if br.branchName == b.branchName then
            { br with userStories := br.userStories.map fun t =>
                if t.id == cur.id then u t else t }
          else br) != st.serverTasks } := by
  unfold updateCurrentStory
  rw [hb, hc]

end Lemmas

/-- C1: the reconciler's conflict protocol for an incoming snapshot.
If the snapshot is string-equal to the last known server snapshot the
state is unchanged (in particular a dirty session stays Editing); if it
differs while dirty, the session becomes Locked with the snapshot recorded
as the new `lastServerSnapshot` and the working copy untouched; if it
differs while clean, the snapshot is adopted as the working copy. -/
theorem c1_reconciler_conflict_protocol (st : ClientState) (next : String)
    (parsed : List TaskBranch) :
    (next = st.serverTasks → handleServerTasks st next parsed = st) ∧
    (next ≠ st.serverTasks → st.dirty = true →
      handleServerTasks st next parsed =
        { st with serverTasks := next, locked := true }) ∧
    (next ≠ st.serverTasks → st.dirty = false →
      (handleServerTasks st next parsed).tasksData = parsed ∧
      (handleServerTasks st next parsed).serverTasks = next ∧
      (handleServerTasks st next parsed).dirty = false ∧
      (handleServerTasks st next parsed).locked = false) := by
  refine ⟨fun h => ?_, fun h hd => ?_, fun h hd => ?_⟩
  · simp [handleServerTasks, h]
  · simp [handleServerTasks, h, hd]
  · simp only [handleServerTasks, beq_iff_eq, if_neg h, hd, if_neg Bool.false_ne_true]
    split
    · split
      · split <;> exact ⟨rfl, rfl, rfl, rfl⟩
      · exact ⟨rfl, rfl, rfl, rfl⟩
    · exact ⟨rfl, rfl, rfl, rfl⟩

/-- C1 witness: concrete instances of all three cases of the protocol. -/
theorem c1_reconciler_conflict_protocol_witness :
    (handleServerTasks ⟨"snap", [], true, false, none, ⟨.idle, ""⟩⟩ "snap" [] =
      ⟨"snap", [], true, false, none, ⟨.idle, ""⟩⟩) ∧
    (handleServerTasks ⟨"snap", [], true, false, none, ⟨.idle, ""⟩⟩ "new" [] =
      { (⟨"snap", [], true, false, none, ⟨.idle, ""⟩⟩ : ClientState) with
          serverTasks := "new", locked := true }) ∧
    ((handleServerTasks ⟨"snap", [], false, false, none, ⟨.idle, ""⟩⟩ "new"
        [⟨"main", []⟩]).tasksData = [⟨"main", []⟩]) :=
  ⟨(c1_reconciler_conflict_protocol ⟨"snap", [], true, false, none, ⟨.idle, ""⟩⟩
      "snap" []).1 rfl,
   (c1_reconciler_conflict_protocol ⟨"snap", [], true, false, none, ⟨.idle, ""⟩⟩
      "new" []).2.1 (by decide) rfl,
   ((c1_reconciler_conflict_protocol ⟨"snap", [], false, false, none, ⟨.idle, ""⟩⟩
      "new" [⟨"main", []⟩]).2.2 (by decide) rfl).1⟩

/-- C2 counterexample: a document whose only story has an empty
`acceptanceCriteria` array (so it lacks "an acceptanceCriteria sequence
with at least one non-blank entry" — `spec41StoryOk` is the claim's §4.1
story rule) is nevertheless accepted by the server-side validator: it
returns `null`, so the request is answered 200, not 400. -/
theorem c2_server_validation_counterexample :
    validateTasks (.arr [.obj [("branchName", .str "main"),
      ("userStories", .arr [.obj [("id", .str "A"), ("title", .str "T"),
        ("acceptanceCriteria", .arr []), ("priority", .num 1),
        ("passes", .bool false)]])]]) = none ∧
    spec41StoryOk (.obj [("id", .str "A"), ("title", .str "T"),
      ("acceptanceCriteria", .arr []), ("priority", .num 1),
      ("passes", .bool false)]) = false := by
  constructor
  · rfl
  · rfl

/-- C2 (amended): the server-side validation of `PUT /tasks` returns a
non-null error exactly when the payload violates its structural shape
checks — payload an array; every entry an object (or array) with a
non-blank string `branchName` and an array `userStories`; every story an
object with non-blank string `id` and `title`, an `acceptanceCriteria`
array whose elements are all strings (an empty or all-blank array is
accepted), a `priority` of number type (any value, including `0` and
negatives), and a boolean `passes`.  It is strictly weaker than the §4.1
client rules: it does not require a non-blank acceptance criterion nor a
positive priority. -/
theorem c2_server_validation_shape (p : Json) :
    validateTasks p = none ↔ tasksShapeOk p := by
  unfold validateTasks tasksShapeOk
  cases p <;> simp [validateEntriesS_none_iff]

/-- C3: for every invalid document the client validator returns the single
message of the first offending branch/story, identified by 1-based
position — earlier branches and earlier stories of the offending branch
all pass, the validator short-circuits at the first failing story and its
message begins with the label `Story {branchIndex+1}.{storyIndex+1}`. -/
theorem c3_first_error_position (payload : List TaskBranch) (i j : Nat)
    (b : TaskBranch) (s : UserStory)
    (hpre : ∀ b' ∈ payload.take i, branchOk b')
    (hb : payload[i]? = some b)
    (hname : isBlank b.branchName = false)
    (hsok : ∀ s' ∈ b.userStories.take j, storyOk s')
    (hs : b.userStories[j]? = some s)
    (hbad : ¬ storyOk s) :
    validateTasksData payload = storyCheck (i + 1) (j + 1) s ∧
    ∃ m, validateTasksData payload =
      some ("Story " ++ toString (i + 1) ++ "." ++ toString (j + 1) ++ m) := by
  have hne : payload ≠ [] := by rintro rfl; simp at hb
  have h1 : validateTasksData payload = validateBranchesC 0 payload := by
    unfold validateTasksData
    rw [if_neg (by simp [List.isEmpty_iff, hne])]
  have h2 := validateBranchesC_first payload i 0 b j s hpre hb hname hsok hs hbad
  have harith : 0 + i + 1 = i + 1 := by omega
  rw [harith] at h2
  obtain ⟨m, hm⟩ := storyCheck_some_label (i + 1) (j + 1) s hbad
  exact ⟨h1.trans h2, m, by rw [h1, h2, hm]⟩

/-- C3 witness: the §8 scenario — the document whose first story of the
first branch has no acceptance criteria fails with a message referencing
`Story 1.1`. -/
theorem c3_first_error_position_witness :
    validateTasksData [⟨"main", [⟨"STORY-001", "A", [], .fin 1, false, none⟩]⟩] =
      storyCheck (0 + 1) (0 + 1) ⟨"STORY-001", "A", [], .fin 1, false, none⟩ ∧
    ∃ m, validateTasksData
        [⟨"main", [⟨"STORY-001", "A", [], .fin 1, false, none⟩]⟩] =
      some ("Story " ++ toString (0 + 1) ++ "." ++ toString (0 + 1) ++ m) :=
  c3_first_error_position
    [⟨"main", [⟨"STORY-001", "A", [], .fin 1, false, none⟩]⟩] 0 0
    ⟨"main", [⟨"STORY-001", "A", [], .fin 1, false, none⟩]⟩
    ⟨"STORY-001", "A", [], .fin 1, false, none⟩
    (by simp) rfl (by decide) (by simp) rfl (by decide)

/-- C4: the log buffer invariant — after any sequence of appended output
lines the buffer holds at most `maxLogLines` (=500) lines; and starting
from an empty buffer, after emitting `maxLogLines + k` non-empty lines
(`k > 0` covered by `maxLogLines ≤ ls.length`), the buffer holds exactly
the most recent `maxLogLines` lines in oldest-first order (the input minus
its first `ls.length - maxLogLines` lines). -/
theorem c4_log_buffer_bound (st : ServerState) (ls : List String)
    (h : st.logBuffer.length ≤ maxLogLines) :
    (emitLines st ls).logBuffer.length ≤ maxLogLines ∧
    (st.logBuffer = [] → (∀ l ∈ ls, l ≠ "") → maxLogLines ≤ ls.length →
      (emitLines st ls).logBuffer = ls.drop (ls.length - maxLogLines)) := by
  constructor
  · rw [emitLines_logBuffer ls st h]
    simp only [List.length_drop, List.length_append]
    omega
  · intro hemp hne hlen
    have hfil : (ls.filter fun l => !(l == "")) = ls :=
      List.filter_eq_self.mpr fun a ha => by simp [hne a ha]
    rw [emitLines_logBuffer ls st h, hemp, hfil]
    simp

/-- C4 witness: 501 non-empty lines into an empty buffer leave exactly the
most recent 500. -/
theorem c4_log_buffer_bound_witness :
    (emitLines ⟨[], [], none, []⟩ (List.replicate 501 "x")).logBuffer.length ≤
      maxLogLines ∧
    (emitLines ⟨[], [], none, []⟩ (List.replicate 501 "x")).logBuffer =
      (List.replicate 501 "x").drop
        ((List.replicate 501 "x").length - maxLogLines) :=
  have h := c4_log_buffer_bound ⟨[], [], none, []⟩ (List.replicate 501 "x")
    (by simp)
  ⟨h.1, h.2 rfl
    (fun l hl => by rw [List.eq_of_mem_replicate hl]; decide)
    (by norm_num [maxLogLines])⟩

/-- C5: runner precondition violations are reported with no state change:
`start` while active fails with the already-running error and spawns
nothing; `start` with a blank (or missing) command fails with the
command-required error; `stop` with no active process fails with the
not-active error; each failure returns the state unchanged (same runner,
log buffer, subscribers and spawn history). -/
theorem c5_runner_precondition_no_state_change (st : ServerState)
    (p : StartPayload) (now : String) :
    (st.runner.isSome = true →
      startRunner st p now = (.error "Runner already active", st)) ∧
    (st.runner = none →
      (p.command = none ∨ ∃ c, p.command = some c ∧ isBlank c = true) →
      startRunner st p now = (.error "command is required", st)) ∧
    (st.runner = none → stopRunner st = (.error "Runner is not active", st)) := by
  refine ⟨fun h => ?_, fun h hc => ?_, fun h => ?_⟩
  · unfold startRunner
    rw [if_pos h]
  · unfold startRunner
    rw [if_neg (by simp [h])]
    rcases hc with hc | ⟨c, hc, hblank⟩
    · rw [hc]
    · rw [hc]
      simp [hblank]
  · unfold stopRunner
    rw [h]

/-- C5 witness: the three failure cases at concrete states. -/
theorem c5_runner_precondition_no_state_change_witness :
    (startRunner ⟨["old"], [], some ⟨⟨true, false, []⟩, "run", [], "t0"⟩, []⟩
        ⟨some "echo hi", none, none⟩ "t1" =
      (.error "Runner already active",
        ⟨["old"], [], some ⟨⟨true, false, []⟩, "run", [], "t0"⟩, []⟩)) ∧
    (startRunner ⟨["old"], [], none, []⟩ ⟨some "  ", none, none⟩ "t1" =
      (.error "command is required", ⟨["old"], [], none, []⟩)) ∧
    (stopRunner ⟨["old"], [], none, []⟩ =
      (.error "Runner is not active", ⟨["old"], [], none, []⟩)) :=
  ⟨(c5_runner_precondition_no_state_change
      ⟨["old"], [], some ⟨⟨true, false, []⟩, "run", [], "t0"⟩, []⟩
      ⟨some "echo hi", none, none⟩ "t1").1 rfl,
   (c5_runner_precondition_no_state_change ⟨["old"], [], none, []⟩
      ⟨some "  ", none, none⟩ "t1").2.1 rfl (Or.inr ⟨"  ", rfl, by decide⟩),
   (c5_runner_precondition_no_state_change ⟨["old"], [], none, []⟩
      ⟨some "  ", none, none⟩ "t1").2.2 rfl⟩

/-- C6: evaluation of `stopRunner` and its 5-second timeout callback at the
failing input — an active child that ignores `SIGTERM` and keeps running.
`stopRunner` sends `SIGTERM` and returns success immediately (the first
half of the claim), but because `kill("SIGTERM")` succeeded, `child.killed`
is already `true`, so the timeout's `if (!child.killed)` guard is false and
no `SIGKILL` is ever issued even though the process is still alive —
contradicting the claim (and the spec's stated escalation). -/
theorem c6_forced_kill_never_fires :
    stopRunner ⟨[], [], some ⟨⟨true, false, []⟩, "sleep 100", [], "t0"⟩, []⟩ =
      (.ok (), ⟨[], [], some ⟨⟨true, true, ["SIGTERM"]⟩, "sleep 100", [], "t0"⟩, []⟩) ∧
    (⟨true, true, ["SIGTERM"]⟩ : Child).alive = true ∧
    stopTimeoutFires ⟨true, true, ["SIGTERM"]⟩ = ⟨true, true, ["SIGTERM"]⟩ :=
  ⟨rfl, rfl, rfl⟩

/-- C7: on a new subscription the subscriber is synchronously sent exactly
one current status event followed by the entire log buffer as one `log`
event per line in chronological order, and is added to the live set only
after the replay — so after any further sequence of event-loop turns its
stream is exactly the replay followed by all live events, with no live
event before the replay and no gap between replay and live stream. -/
theorem c7_subscribe_replay_then_live (st : ServerState) (cid : Nat)
    (ops : List ServerOp) (hfresh : ∀ c ∈ st.clients, c.cid ≠ cid) :
    findClient (subscribe st cid) cid =
      some ⟨cid, Event.status (runnerStatus st) :: st.logBuffer.map Event.log⟩ ∧
    findClient (runOps (subscribe st cid) ops) cid =
      some ⟨cid, (Event.status (runnerStatus st) :: st.logBuffer.map Event.log)
        ++ emittedEvents (subscribe st cid) ops⟩ := by
  constructor
  · unfold findClient subscribe
    apply find?_append_last
    · intro y hy
      simp [hfresh y hy]
    · simp
  · unfold findClient
    rw [runOps_clients]
    show (((subscribe st cid).clients).map _).find? _ = _
    have hcl : (subscribe st cid).clients = st.clients ++
        [⟨cid, Event.status (runnerStatus st) :: st.logBuffer.map Event.log⟩] :=
      rfl
    rw [hcl, List.map_append]
    show (_ ++ [addEvents _ _]).find? _ = _
    rw [find?_append_last]
    · rfl
    · intro y hy
      rcases List.mem_map.mp hy with ⟨c, hc, rfl⟩
      simp [addEvents_cid, hfresh c hc]
    · simp [addEvents_cid]

/-- C7 witness: a subscriber joining with two buffered lines receives the
status event, the two buffered lines, and then exactly the live events of
the following turns. -/
theorem c7_subscribe_replay_then_live_witness :
    findClient (subscribe ⟨["l1", "l2"], [⟨0, []⟩], none, []⟩ 1) 1 =
      some ⟨1, Event.status (runnerStatus ⟨["l1", "l2"], [⟨0, []⟩], none, []⟩)
        :: (["l1", "l2"].map Event.log)⟩ ∧
    findClient (runOps (subscribe ⟨["l1", "l2"], [⟨0, []⟩], none, []⟩ 1)
        [.output "a\nb", .statusBroadcast]) 1 =
      some ⟨1, (Event.status (runnerStatus ⟨["l1", "l2"], [⟨0, []⟩], none, []⟩)
          :: (["l1", "l2"].map Event.log)) ++
        emittedEvents (subscribe ⟨["l1", "l2"], [⟨0, []⟩], none, []⟩ 1)
          [.output "a\nb", .statusBroadcast]⟩ :=
  c7_subscribe_replay_then_live ⟨["l1", "l2"], [⟨0, []⟩], none, []⟩ 1
    [.output "a\nb", .statusBroadcast] (by decide)

/-- C8: dirty recomputation — a local field edit applied while not locked
recomputes `dirty` as the structural-serialization inequality between the
updated working copy and the last server snapshot (never a sticky bit),
so editing a field (`u1`, id-preserving) and then editing it back to its
original value (`u2`, with `u2 ∘ u1 = id`) restores the document and
clears `dirty` when the session started in sync with the snapshot. -/
theorem c8_dirty_recomputation (st : ClientState) (u1 u2 : UserStory → UserStory)
    (b : TaskBranch) (cur : UserStory)
    (_hlock : st.locked = false)
    (hb : st.tasksData.head? = some b)
    (hc : currentStoryOf st.tasksData st.selectedStoryId = some cur)
    (hid : ∀ t, (u1 t).id = t.id)
    (hrev : ∀ t, u2 (u1 t) = t)
    (hsync : formatTasks st.tasksData = st.serverTasks) :
    (updateCurrentStory st u1).dirty =
      (formatTasks (updateCurrentStory st u1).tasksData != st.serverTasks) ∧
    (updateCurrentStory (updateCurrentStory st u1) u2).tasksData =
      st.tasksData ∧
    (updateCurrentStory (updateCurrentStory st u1) u2).dirty = false := by
  have h1 := updateCurrentStory_eq st u1 b cur hb hc
  have hb1 : (updateCurrentStory st u1).tasksData.head? =
      some ⟨b.branchName,
        b.userStories.map fun t => if t.id == cur.id then u1 t else t⟩ := by
    rw [h1]
    dsimp only
    rw [List.head?_map, hb]
    dsimp only [Option.map_some']
    rw [if_pos (beq_self_eq_true b.branchName)]
  have hsel1 : (updateCurrentStory st u1).selectedStoryId =
      st.selectedStoryId := by rw [h1]
  have hserv1 : (updateCurrentStory st u1).serverTasks = st.serverTasks := by
    rw [h1]
  have hf1id : ∀ t : UserStory,
      ((fun t => if t.id == cur.id then u1 t else t) t).id = t.id := by
    intro t
    dsimp only
    by_cases ht : (t.id == cur.id) = true
    · rw [if_pos ht]; exact hid t
    · rw [if_neg ht]
  have hc1 : currentStoryOf (updateCurrentStory st u1).tasksData
      (updateCurrentStory st u1).selectedStoryId = some (u1 cur) := by
    rw [hsel1, currentStoryOf_head _ _ hb1]
    dsimp only
    rw [findSelected_map _ _ hf1id, List.head?_map, option_map_orElse]
    rw [← currentStoryOf_head st.tasksData b hb st.selectedStoryId, hc]
    dsimp only [Option.map_some']
    rw [if_pos (beq_self_eq_true cur.id)]
  have h2 := updateCurrentStory_eq (updateCurrentStory st u1) u2
    ⟨b.branchName,
      b.userStories.map fun t => if t.id == cur.id then u1 t else t⟩
    (u1 cur) hb1 hc1
  have hdata2 : (updateCurrentStory (updateCurrentStory st u1) u2).tasksData =
      st.tasksData := by
    rw [h2]
    dsimp only
    rw [h1]
    dsimp only
    rw [List.map_map]
    refine (List.map_congr_left ?_).trans (List.map_id _)
    intro br _
    dsimp only [Function.comp, id]
    by_cases hbr : (br.branchName == b.branchName) = true
    · rw [if_pos hbr]
      dsimp only
      rw [if_pos hbr, List.map_map]
      have hpt : ∀ t ∈ br.userStories,
          ((fun t => if t.id == (u1 cur).id then u2 t else t) ∘
            fun t => if t.id == cur.id then u1 t else t) t = t := by
        intro t _
        dsimp only [Function.comp]
        by_cases ht : (t.id == cur.id) = true
        · rw [if_pos ht]
          have hcond : ((u1 t).id == (u1 cur).id) = true := by
            rw [hid t, hid cur]; exact ht
          rw [if_pos hcond]
          exact hrev t
        · rw [if_neg ht]
          have hcond : ¬ ((t.id == (u1 cur).id) = true) := by
            rw [hid cur]; exact ht
          rw [if_neg hcond]
      rw [List.map_congr_left hpt, List.map_id']
    · rw [if_neg hbr, if_neg hbr]
  have hdirtyform : (updateCurrentStory (updateCurrentStory st u1) u2).dirty =
      (formatTasks
          ((updateCurrentStory (updateCurrentStory st u1) u2).tasksData) !=
        st.serverTasks) := by
    rw [h2]
    dsimp only
    rw [hserv1]
  refine ⟨?_, hdata2, ?_⟩
  · rw [h1]
  · rw [hdirtyform, hdata2, hsync]
    exact bne_self_eq_false _

/-- C8 witness: toggling a story's pass flag twice from an in-sync session
restores the document and leaves `dirty` cleared. -/
theorem c8_dirty_recomputation_witness :
    (updateCurrentStory exampleSession togglePasses).dirty =
      (formatTasks (updateCurrentStory exampleSession togglePasses).tasksData !=
        exampleSession.serverTasks) ∧
    (updateCurrentStory (updateCurrentStory exampleSession togglePasses)
        togglePasses).tasksData = exampleSession.tasksData ∧
    (updateCurrentStory (updateCurrentStory exampleSession togglePasses)
        togglePasses).dirty = false :=
  c8_dirty_recomputation exampleSession togglePasses togglePasses
    ⟨"main", [exampleStory]⟩ exampleStory rfl rfl rfl
    (fun _ => rfl)
    (by intro t; cases t; simp [togglePasses])
    rfl

/-- C9: a successful `PUT /tasks` answers 200 and leaves the file holding
the canonicalized serialization of the payload followed by a trailing
newline, and saving the same unchanged document twice yields identical
on-disk content both times. -/
theorem c9_idempotent_canonical_save (payload : Json) (disk : String)
    (hv : validateTasks payload = none) :
    putTasks payload disk = (⟨200, none⟩, serializeJson payload ++ "\n") ∧
    (putTasks payload (putTasks payload disk).2).2 = (putTasks payload disk).2 ∧
    ∃ body, (putTasks payload disk).2 = body ++ "\n" := by
  unfold putTasks
  rw [hv]
  exact ⟨rfl, rfl, serializeJson payload, rfl⟩

/-- C9 witness: the scenario document from §8 of the spec. -/
theorem c9_idempotent_canonical_save_witness :
    putTasks
        (.arr [.obj [("branchName", .str "main"),
          ("userStories", .arr [.obj [("id", .str "STORY-001"),
            ("title", .str "A"), ("acceptanceCriteria", .arr [.str "x"]),
            ("priority", .num 1), ("passes", .bool false)]])]]) "" =
      (⟨200, none⟩,
        serializeJson (.arr [.obj [("branchName", .str "main"),
          ("userStories", .arr [.obj [("id", .str "STORY-001"),
            ("title", .str "A"), ("acceptanceCriteria", .arr [.str "x"]),
            ("priority", .num 1), ("passes", .bool false)]])]]) ++ "\n") :=
  (c9_idempotent_canonical_save
    (.arr [.obj [("branchName", .str "main"),
      ("userStories", .arr [.obj [("id", .str "STORY-001"),
        ("title", .str "A"), ("acceptanceCriteria", .arr [.str "x"]),
        ("priority", .num 1), ("passes", .bool false)]])]]) "" (by decide)).1

/-- C10: a successful `start` records exactly one spawn call, and that call
goes through a shell exactly when the args list is absent or empty; a
non-empty args array is passed to a direct (shell-free) spawn. -/
theorem c10_shell_iff_no_args (st : ServerState) (p : StartPayload)
    (now : String) (cmd : String) (hr : st.runner = none)
    (hc : p.command = some cmd) (hb : isBlank cmd = false) :
    ∃ call : SpawnCall,
      (startRunner st p now).2.spawns = st.spawns ++ [call] ∧
      call.command = cmd ∧ call.args = p.args.getD [] ∧
      (call.shell = true ↔ p.args = none ∨ p.args = some []) := by
  unfold startRunner
  simp only [hr, hc, Option.isSome_none, Bool.false_eq_true, if_false, hb,
    ite_false]
  refine ⟨⟨cmd, p.args.getD [], (p.args.getD []).isEmpty,
    (match p.cwd with
      | some c => if isBlank c = true then processCwd else c
      | none => processCwd)⟩, ?_, rfl, rfl, ?_⟩
  · rw [broadcastEvent_spawns, appendLog_spawns]
  · cases ha : p.args with
    | none => simp
    | some args => cases args <;> simp

/-- C10 witness: a no-args start is marked as a shell spawn. -/
theorem c10_shell_iff_no_args_witness :
    ∃ call : SpawnCall,
      (startRunner ⟨[], [], none, []⟩ ⟨some "echo hi", none, none⟩ "t").2.spawns =
        [] ++ [call] ∧
      call.command = "echo hi" ∧
      call.args = (none : Option (List String)).getD [] ∧
      (call.shell = true ↔
        (none : Option (List String)) = none ∨
          (none : Option (List String)) = some []) :=
  c10_shell_iff_no_args ⟨[], [], none, []⟩ ⟨some "echo hi", none, none⟩ "t"
    "echo hi" rfl rfl (by decide)

end Ralphy
